import Mathlib

/-!
Verification of the number-validation program in `src/annotate-me.ts`.

The program parses a line of text with JavaScript `parseInt`, range-checks the
result (`value > 0 && value <= 10`), and loops until a valid number is
obtained.  We embed the TypeScript code shallowly:

* A JavaScript number is modelled by `JSNum`: either `nan` or an exact
  rational value.  Every number this program manipulates (outputs of
  `parseInt` within the safe-integer range, the literals `0` and `10`) is
  exactly representable as a double, so exact rational arithmetic coincides
  with double arithmetic on all reachable values; double rounding is not
  modelled, and the parsing claims are stated within the exactly-representable
  integer range.
* `parseIntJS` embeds ECMAScript `parseInt(string)` with the radix argument
  undefined: skip leading white space, read an optional sign, detect a
  `0x`/`0X` marker (switching to radix 16), then take the longest run of
  radix digits; an empty run yields NaN.  White-space classification is
  restricted to the ASCII white-space characters.  The digit run's
  mathematical value is returned exactly; the real `parseInt` rounds that
  value to the nearest double, so the embedding is faithful to the digit-run
  value precisely when it is at most 2^53 - 1.  Every theorem asserting the
  exact value of a parse result therefore either evaluates a concrete input
  inside that range or carries the bound as a hypothesis; theorems that only
  use the range/NaN classification of the result (acceptance in (0, 10],
  rejection otherwise) are unaffected, since rounding never moves a value
  across those boundaries.
* The interaction loop is embedded as a recursion over the list of strings
  successively delivered by the input channel (one element per read, as the
  design's input-channel interface specifies).  Exhausting the list means
  only that the supplied read results are consumed while the loop is still
  awaiting the next read (`ProgOutcome.looping`, no exit taken).  What that
  next read yields is the channel's ending behaviour: on a channel closed at
  end-of-file, `fs.readFile('/dev/stdin')` resolves with the empty string,
  so a closed channel is modelled by reads delivering `""`; on an unreadable
  channel the read rejects, and since the async IIFE contains no try/catch
  the rejection is unhandled and Node terminates the process with a non-zero
  status (`readErrorOutcome`).
-/

/-- A JavaScript number as used by this program: NaN or an exact rational. -/
inductive JSNum where
  | nan : JSNum
  | num : ℚ → JSNum
deriving DecidableEq

/-- `a > b` on JS numbers: any comparison with NaN is false. -/
def JSNum.gtB : JSNum → JSNum → Bool
  | .num a, .num b => decide (b < a)
  | _, _ => false

/-- `a <= b` on JS numbers: any comparison with NaN is false. -/
def JSNum.leB : JSNum → JSNum → Bool
  | .num a, .num b => decide (a ≤ b)
  | _, _ => false

/-- The `UnsanitizedNumber` record (`kind: 'unsanitized-number'` plus a
numeric payload); the kind discriminant is the Lean structure itself. -/
structure UnsanitizedNumber where
  value : JSNum
deriving DecidableEq

/-- The `SanitizedNumber` record (`kind: 'sanitized-number'` plus a numeric
payload). -/
structure SanitizedNumber where
  value : JSNum
deriving DecidableEq

/-- The closed union `AppNumber = InvalidNumber | SanitizedNumber |
UnsanitizedNumber`; the constructor is the `kind` discriminant, and
`invalid` carries no payload, exactly as `InvalidNumber` has none. -/
inductive AppNumber where
  | invalid : AppNumber
  | sanitized : JSNum → AppNumber
  | unsanitized : JSNum → AppNumber
deriving DecidableEq

/-- The `kind` discriminant string of an `AppNumber`. -/
def AppNumber.kind : AppNumber → String
  | .invalid => "invalid-number"
  | .sanitized _ => "sanitized-number"
  | .unsanitized _ => "unsanitized-number"

/-- ASCII white-space characters recognised while skipping leading white
space (space, tab, line feed, vertical tab, form feed, carriage return). -/
def wsChar (c : Char) : Bool :=
  c == ' ' || c == '\t' || c == '\n' || c == '\x0b' || c == '\x0c' || c == '\r'

/-- Skip leading white space. -/
def skipWs : List Char → List Char
  | [] => []
  | c :: cs => if wsChar c then skipWs cs else c :: cs

/-- Read an optional sign character, returning the sign and the rest. -/
def readSign (cs : List Char) : ℤ × List Char :=
  match cs with
  | [] => (1, [])
  | c :: rest => if c == '-' then (-1, rest) else if c == '+' then (1, rest) else (1, cs)

/-- Whether the text starts with the hexadecimal marker `0x` or `0X`. -/
def hexMarked (cs : List Char) : Bool :=
  match cs with
  | c1 :: c2 :: _ => c1 == '0' && (c2 == 'x' || c2 == 'X')
  | _ => false

/-- The numeric value of a digit character, if it is one (decimal digits and
the hexadecimal letters in either case). -/
def digitVal (c : Char) : Option ℕ :=
  if 48 ≤ c.toNat ∧ c.toNat ≤ 57 then some (c.toNat - 48)
  else if 97 ≤ c.toNat ∧ c.toNat ≤ 102 then some (c.toNat - 87)
  else if 65 ≤ c.toNat ∧ c.toNat ≤ 70 then some (c.toNat - 55)
  else none

/-- The longest leading run of digits valid in the given radix, as values. -/
def takeDigits (radix : ℕ) : List Char → List ℕ
  | [] => []
  | c :: cs =>
    match digitVal c with
    | some d => if d < radix then d :: takeDigits radix cs else []
    | none => []

/-- The value of a big-endian digit list in the given radix. -/
def digitsVal (radix : ℕ) (ds : List ℕ) : ℕ :=
  ds.foldl (fun a d => a * radix + d) 0

/-- Finish `parseInt`: take the digit run in the given radix from the text
after sign processing and combine it with the sign; no digits means NaN. -/
def parseTail (sgn : ℤ) (radix : ℕ) (cs : List Char) : JSNum :=
  if takeDigits radix cs = [] then JSNum.nan
  else JSNum.num ((sgn * (digitsVal radix (takeDigits radix cs) : ℤ) : ℤ) : ℚ)

/-- ECMAScript `parseInt(string)` with the radix argument undefined, as the
source calls it on line 46: skip white space, read an optional sign, then
parse in radix 16 when a `0x`/`0X` marker follows (dropping the marker) and
in radix 10 otherwise.  The digit run's mathematical value is kept exact;
`parseInt` itself rounds it to the nearest double, which is the identity
exactly when the value is at most 2^53 - 1 (see the module comment). -/
def parseIntJS (s : String) : JSNum :=
  if hexMarked (readSign (skipWs s.data)).2
  then parseTail (readSign (skipWs s.data)).1 16 ((readSign (skipWs s.data)).2.drop 2)
  else parseTail (readSign (skipWs s.data)).1 10 (readSign (skipWs s.data)).2

/-- The parsing stage `unsanitizedNumber` (the spec's `parseNumber`): call
`parseInt`, return null on NaN, otherwise wrap the parsed value. -/
def unsanitizedNumber (input : String) : Option UnsanitizedNumber :=
  if parseIntJS input = JSNum.nan then none
  else some ⟨parseIntJS input⟩

/-- The sanitization stage `sanitizedNumber` (the spec's `sanitizeNumber`):
null propagates; otherwise the value passes iff `value > 0 && value <= 10`. -/
def sanitizedNumber (input : Option UnsanitizedNumber) : Option SanitizedNumber :=
  match input with
  | none => none
  | some u =>
    if u.value.gtB (JSNum.num 0) && u.value.leB (JSNum.num 10)
    then some ⟨u.value⟩
    else none

/-- Spec-side definition for the refinement claim about the parsing stage,
following the spec's words (sections 4.2 and 8): the base-10 integer value of
the text's leading portion, reading a base-10 integer literal as optional
white space, an optional sign, and a longest run of decimal digits; absent
when there is no such digit run.  No radix switching of any kind. -/
def specLeadingBase10 (s : String) : Option ℤ :=
  if takeDigits 10 (readSign (skipWs s.data)).2 = [] then none
  else some ((readSign (skipWs s.data)).1 *
    (digitsVal 10 (takeDigits 10 (readSign (skipWs s.data)).2) : ℤ))

/-- Decimal digit characters, as a table so that facts about each digit are
decidable by cases. -/
def digitChar (d : ℕ) : Char :=
  if d = 0 then '0' else if d = 1 then '1' else if d = 2 then '2'
  else if d = 3 then '3' else if d = 4 then '4' else if d = 5 then '5'
  else if d = 6 then '6' else if d = 7 then '7' else if d = 8 then '8' else '9'

/-- Big-endian decimal digits of a natural number, with explicit fuel to keep
the recursion structural (fuel `n` always suffices since `n / 10 < n`). -/
def natDigitsBEAux : ℕ → ℕ → List ℕ
  | 0, _ => []
  | fuel + 1, n => if n = 0 then [] else natDigitsBEAux fuel (n / 10) ++ [n % 10]

/-- Big-endian decimal digits of a natural number; `0` renders as `[0]`. -/
def decimalDigits (n : ℕ) : List ℕ :=
  if n = 0 then [0] else natDigitsBEAux n n

/-- ECMAScript `ToString` of an integer in the exactly-representable range:
an optional minus sign followed by the decimal digits, no leading zeros. -/
def jsToString (n : ℤ) : String :=
  if n < 0 then String.mk ('-' :: (decimalDigits n.natAbs).map digitChar)
  else String.mk ((decimalDigits n.natAbs).map digitChar)

/-- ECMAScript `ToString` of a JS number, restricted to the NaN and integral
cases, the only ones this program ever renders (the loop's final value is
produced by `parseInt` and hence integral). -/
def JSNum.display : JSNum → String
  | .nan => "NaN"
  | .num q => jsToString q.num

/-- The text interpolated for `finalNumber.value`: an `InvalidNumber` has no
`value` property, so JavaScript would interpolate `undefined`. -/
def AppNumber.valueText : AppNumber → String
  | .invalid => "undefined"
  | .sanitized v => v.display
  | .unsanitized v => v.display

/-- The diagnostic line `showError` writes to the error channel. -/
def showErrorMsg (x : String) : String :=
  x ++ " is not what I asked for."

/-- The prompt written once before the loop. -/
def promptMsg : String := "Give me a number between 1 and 10:"

/-- The success line written after the loop. -/
def successMsg (fn : AppNumber) : String :=
  "You did what I wanted and gave me " ++ fn.valueText ++ "!"

/-- Observable events of a program run: a read from the input channel, a
diagnostic line on the error channel, a line on the output channel. -/
inductive Event where
  | readLine : String → Event
  | errLine : String → Event
  | outLine : String → Event
deriving DecidableEq

/-- The loop body's update of `finalNumber`: on success the variable is
assigned the freshly constructed sanitized record, otherwise it is left
untouched. -/
def stepState (fn : AppNumber) (input : String) : AppNumber :=
  match sanitizedNumber (unsanitizedNumber input) with
  | some s => AppNumber.sanitized s.value
  | none => fn

/-- The do-while loop of the async IIFE, as a recursion over the list of
strings the successive reads deliver.  Each iteration performs exactly one
read, pipes it through parse then sanitize, either stores the sanitized
result or emits one diagnostic, and re-enters iff the `kind` of
`finalNumber` still differs from `'sanitized-number'`.  An exhausted list
means the supplied read results are consumed while the loop is still
awaiting its next read, so no final state is produced (a channel closed at
end-of-file keeps delivering `""`, which is modelled by extending the list
with empty strings; an unreadable channel's read rejects — see
`readErrorOutcome`). -/
def runLoop : List String → AppNumber → List Event × Option AppNumber
  | [], _ => ([], none)
  | input :: rest, fn =>
    if (stepState fn input).kind ≠ "sanitized-number" then
      ((match sanitizedNumber (unsanitizedNumber input) with
        | some _ => [Event.readLine input]
        | none => [Event.readLine input, Event.errLine (showErrorMsg input)]) ++
        (runLoop rest (stepState fn input)).1,
       (runLoop rest (stepState fn input)).2)
    else
      ((match sanitizedNumber (unsanitizedNumber input) with
        | some _ => [Event.readLine input]
        | none => [Event.readLine input, Event.errLine (showErrorMsg input)]),
       some (stepState fn input))

/-- The observable status of a run over the supplied read results: normal
termination after the success message, still inside the loop awaiting the
next read, or killed by an unhandled rejection of a read. -/
inductive ProgOutcome where
  | finished : AppNumber → ProgOutcome
  | looping : ProgOutcome
  | fatal : ProgOutcome
deriving DecidableEq

/-- The process exit status for each outcome: 0 after the success message,
1 for an unhandled promise rejection (Node's default), and none while the
program is still looping — no exit has been taken. -/
def exitStatus : ProgOutcome → Option ℕ
  | .finished _ => some 0
  | .looping => none
  | .fatal => some 1

/-- The outcome when the awaited read itself rejects (the channel is
unreadable): the async IIFE on lines 88-118 contains no try/catch, so the
rejection is unhandled and Node terminates the process with a non-zero
status. -/
def readErrorOutcome : ProgOutcome := ProgOutcome.fatal

/-- The whole program: prompt, run the loop from the `invalid` placeholder
over the supplied read results, then print the success message on normal
termination; if the results run out while the loop still awaits a read, the
run is still looping and no exit is taken. -/
def runProgram (inputs : List String) : List Event × ProgOutcome :=
  match runLoop inputs AppNumber.invalid with
  | (evs, some fn) =>
    (Event.outLine promptMsg :: (evs ++ [Event.outLine (successMsg fn)]),
     ProgOutcome.finished fn)
  | (evs, none) => (Event.outLine promptMsg :: evs, ProgOutcome.looping)

/-- Number of reads in an event list. -/
def countRead (evs : List Event) : ℕ :=
  evs.countP (fun e => match e with | .readLine _ => true | _ => false)

/-- Number of diagnostic lines in an event list. -/
def countErr (evs : List Event) : ℕ :=
  evs.countP (fun e => match e with | .errLine _ => true | _ => false)

/-- The loop-state invariant: `finalNumber` is either the initial
`InvalidNumber` placeholder or a `SanitizedNumber` whose wrapped value is an
integer in the inclusive range 1..10; in particular it never holds an
`UnsanitizedNumber`. -/
def goodState (fn : AppNumber) : Prop :=
  fn = AppNumber.invalid ∨
    ∃ z : ℤ, fn = AppNumber.sanitized (JSNum.num ((z : ℤ) : ℚ)) ∧ 1 ≤ z ∧ z ≤ 10

lemma digitChar_facts (d : ℕ) (h : d < 10) :
    digitVal (digitChar d) = some d ∧ wsChar (digitChar d) = false ∧
    (digitChar d == '-') = false ∧ (digitChar d == '+') = false ∧
    (digitChar d == 'x') = false ∧ (digitChar d == 'X') = false := by
  interval_cases d <;> exact ⟨by decide, by decide, by decide, by decide, by decide, by decide⟩

lemma takeDigits_map_digitChar (ds : List ℕ) (h : ∀ d ∈ ds, d < 10) :
    takeDigits 10 (ds.map digitChar) = ds := by
  induction ds with
  | nil => rfl
  | cons d ds ih =>
    have hd : d < 10 := h d (List.mem_cons_self d ds)
    have hv := (digitChar_facts d hd).1
    simp only [List.map_cons, takeDigits, hv, if_pos hd]
    exact congrArg (d :: ·) (ih fun x hx => h x (List.mem_cons_of_mem d hx))

lemma natDigitsBEAux_lt (fuel : ℕ) : ∀ n, ∀ d ∈ natDigitsBEAux fuel n, d < 10 := by
  induction fuel with
  | zero => intro n d hd; simp [natDigitsBEAux] at hd
  | succ fuel ih =>
    intro n d hd
    by_cases h0 : n = 0
    · simp [natDigitsBEAux, h0] at hd
    · simp only [natDigitsBEAux, if_neg h0, List.mem_append, List.mem_singleton] at hd
      rcases hd with hd | hd
      · exact ih (n / 10) d hd
      · subst hd; exact Nat.mod_lt n (by norm_num)

lemma decimalDigits_lt (n : ℕ) : ∀ d ∈ decimalDigits n, d < 10 := by
  unfold decimalDigits
  by_cases h0 : n = 0
  · simp [h0]
  · simpa [if_neg h0] using natDigitsBEAux_lt n n

lemma digitsVal_append_single (r : ℕ) (L : List ℕ) (d : ℕ) :
    digitsVal r (L ++ [d]) = digitsVal r L * r + d := by
  simp [digitsVal, List.foldl_append]

lemma digitsVal_natDigitsBEAux (fuel : ℕ) :
    ∀ n, n ≤ fuel → digitsVal 10 (natDigitsBEAux fuel n) = n := by
  induction fuel with
  | zero =>
    intro n hn
    interval_cases n
    rfl
  | succ fuel ih =>
    intro n hn
    by_cases h0 : n = 0
    · simp [natDigitsBEAux, h0, digitsVal]
    · have hdiv : n / 10 ≤ fuel := by
        have := Nat.div_lt_self (Nat.pos_of_ne_zero h0) (by norm_num : 1 < 10)
        omega
      simp only [natDigitsBEAux, if_neg h0, digitsVal_append_single, ih (n / 10) hdiv]
      omega

lemma digitsVal_decimalDigits (n : ℕ) : digitsVal 10 (decimalDigits n) = n := by
  unfold decimalDigits
  by_cases h0 : n = 0
  · simp [h0, digitsVal]
  · rw [if_neg h0]
    exact digitsVal_natDigitsBEAux n n le_rfl

lemma decimalDigits_ne_nil (n : ℕ) : decimalDigits n ≠ [] := by
  unfold decimalDigits
  by_cases h0 : n = 0
  · simp [h0]
  · rw [if_neg h0]
    match hf : n with
    | m + 1 =>
      simp only [natDigitsBEAux, if_neg h0]
      exact List.append_ne_nil_of_right_ne_nil _ (by simp)

lemma skipWs_of_head_not_ws (c : Char) (cs : List Char) (h : wsChar c = false) :
    skipWs (c :: cs) = c :: cs := by
  simp [skipWs, h]

lemma readSign_of_head_plain (c : Char) (cs : List Char)
    (h1 : (c == '-') = false) (h2 : (c == '+') = false) :
    readSign (c :: cs) = (1, c :: cs) := by
  simp [readSign, h1, h2]

lemma hexMarked_map_digitChar (ds : List ℕ) (h : ∀ d ∈ ds, d < 10) :
    hexMarked (ds.map digitChar) = false := by
  match ds with
  | [] => rfl
  | [d] => rfl
  | d1 :: d2 :: rest =>
    have h2 : d2 < 10 := h d2 (by simp)
    have hx := (digitChar_facts d2 h2).2.2.2.2
    simp only [List.map_cons, hexMarked, hx.1, hx.2]
    simp

lemma parseTail_decimalDigits (sgn : ℤ) (m : ℕ) :
    parseTail sgn 10 ((decimalDigits m).map digitChar) =
      JSNum.num ((sgn * (m : ℤ) : ℤ) : ℚ) := by
  unfold parseTail
  rw [takeDigits_map_digitChar (decimalDigits m) (decimalDigits_lt m)]
  rw [if_neg (decimalDigits_ne_nil m)]
  rw [digitsVal_decimalDigits]

lemma decimalDigits_head_facts (m : ℕ) :
    skipWs ((decimalDigits m).map digitChar) = (decimalDigits m).map digitChar ∧
    readSign ((decimalDigits m).map digitChar) = (1, (decimalDigits m).map digitChar) ∧
    hexMarked ((decimalDigits m).map digitChar) = false := by
  match hm : decimalDigits m, decimalDigits_ne_nil m with
  | d :: ds, _ =>
    have hlt : ∀ x ∈ d :: ds, x < 10 := by
      rw [← hm]; exact decimalDigits_lt m
    have hd : d < 10 := hlt d (by simp)
    have hfacts := digitChar_facts d hd
    refine ⟨?_, ?_, ?_⟩
    · simpa using skipWs_of_head_not_ws (digitChar d) (ds.map digitChar) hfacts.2.1
    · simpa using readSign_of_head_plain (digitChar d) (ds.map digitChar)
        hfacts.2.2.1 hfacts.2.2.2.1
    · exact hexMarked_map_digitChar (d :: ds) hlt

lemma parseIntJS_of_digits (m : ℕ) :
    parseIntJS (String.mk ((decimalDigits m).map digitChar)) =
      JSNum.num ((m : ℤ) : ℚ) := by
  obtain ⟨h1, h2, h3⟩ := decimalDigits_head_facts m
  have hdata : (String.mk ((decimalDigits m).map digitChar)).data =
      (decimalDigits m).map digitChar := rfl
  unfold parseIntJS
  rw [hdata, h1, h2]
  simp only [h3, Bool.false_eq_true, if_false]
  rw [parseTail_decimalDigits]
  norm_num

lemma parseIntJS_of_minus_digits (m : ℕ) :
    parseIntJS (String.mk ('-' :: (decimalDigits m).map digitChar)) =
      JSNum.num ((-(m : ℤ) : ℤ) : ℚ) := by
  obtain ⟨h1, h2, h3⟩ := decimalDigits_head_facts m
  have hdata : (String.mk ('-' :: (decimalDigits m).map digitChar)).data =
      '-' :: (decimalDigits m).map digitChar := rfl
  have hskip : skipWs ('-' :: (decimalDigits m).map digitChar) =
      '-' :: (decimalDigits m).map digitChar :=
    skipWs_of_head_not_ws _ _ (by decide)
  have hsign : readSign ('-' :: (decimalDigits m).map digitChar) =
      (-1, (decimalDigits m).map digitChar) := by
    simp [readSign]
  unfold parseIntJS
  rw [hdata, hskip, hsign]
  simp only [h3, Bool.false_eq_true, if_false]
  rw [parseTail_decimalDigits]
  norm_num

lemma parseIntJS_jsToString (n : ℤ) :
    parseIntJS (jsToString n) = JSNum.num ((n : ℤ) : ℚ) := by
  unfold jsToString
  by_cases hn : n < 0
  · rw [if_pos hn, parseIntJS_of_minus_digits]
    have : (-(n.natAbs : ℤ) : ℤ) = n := by omega
    rw [this]
  · rw [if_neg hn, parseIntJS_of_digits]
    have : ((n.natAbs : ℤ) : ℤ) = n := by omega
    rw [this]

lemma unsanitizedNumber_jsToString (n : ℤ) :
    unsanitizedNumber (jsToString n) = some ⟨JSNum.num ((n : ℤ) : ℚ)⟩ := by
  unfold unsanitizedNumber
  rw [parseIntJS_jsToString]
  simp

lemma sanitizedNumber_rat (q : ℚ) :
    sanitizedNumber (some ⟨JSNum.num q⟩) =
      if 0 < q ∧ q ≤ 10 then some ⟨JSNum.num q⟩ else none := by
  simp only [sanitizedNumber, JSNum.gtB, JSNum.leB]
  by_cases h1 : 0 < q
  · by_cases h2 : q ≤ 10
    · simp [h1, h2]
    · simp [h1, h2]
  · simp [h1]

lemma sanitizedNumber_int (z : ℤ) :
    sanitizedNumber (some ⟨JSNum.num ((z : ℤ) : ℚ)⟩) =
      if 1 ≤ z ∧ z ≤ 10 then some ⟨JSNum.num ((z : ℤ) : ℚ)⟩ else none := by
  rw [sanitizedNumber_rat]
  have hiff : (0 < ((z : ℤ) : ℚ) ∧ ((z : ℤ) : ℚ) ≤ 10) ↔ (1 ≤ z ∧ z ≤ 10) := by
    rw [show ((10 : ℚ)) = ((10 : ℤ) : ℚ) by norm_num, Int.cast_pos, Int.cast_le]
    omega
  rw [if_congr hiff rfl rfl]

lemma parseIntJS_shape (s : String) :
    parseIntJS s = JSNum.nan ∨ ∃ z : ℤ, parseIntJS s = JSNum.num ((z : ℤ) : ℚ) := by
  unfold parseIntJS parseTail
  cases hh : hexMarked (readSign (skipWs s.data)).2 with
  | true =>
    simp only [if_true]
    by_cases h2 : takeDigits 16 ((readSign (skipWs s.data)).2.drop 2) = []
    · left; simp [h2]
    · right
      exact ⟨(readSign (skipWs s.data)).1 *
        (digitsVal 16 (takeDigits 16 ((readSign (skipWs s.data)).2.drop 2)) : ℤ),
        by simp [h2]⟩
  | false =>
    simp only [Bool.false_eq_true, if_false]
    by_cases h2 : takeDigits 10 (readSign (skipWs s.data)).2 = []
    · left; simp [h2]
    · right
      exact ⟨(readSign (skipWs s.data)).1 *
        (digitsVal 10 (takeDigits 10 (readSign (skipWs s.data)).2) : ℤ),
        by simp [h2]⟩

lemma sanitize_pipeline_shape (input : String) (s : SanitizedNumber)
    (h : sanitizedNumber (unsanitizedNumber input) = some s) :
    ∃ z : ℤ, s.value = JSNum.num ((z : ℤ) : ℚ) ∧ 1 ≤ z ∧ z ≤ 10 := by
  unfold unsanitizedNumber at h
  by_cases hnan : parseIntJS input = JSNum.nan
  · rw [if_pos hnan] at h
    simp [sanitizedNumber] at h
  · rw [if_neg hnan] at h
    rcases parseIntJS_shape input with h' | ⟨z, hz⟩
    · exact absurd h' hnan
    · rw [hz, sanitizedNumber_int] at h
      by_cases hr : 1 ≤ z ∧ z ≤ 10
      · rw [if_pos hr] at h
        obtain rfl := Option.some.inj h
        exact ⟨z, rfl, hr⟩
      · rw [if_neg hr] at h
        exact absurd h (by simp)

lemma stepState_preserves_good (fn : AppNumber) (input : String)
    (h : goodState fn) : goodState (stepState fn input) := by
  unfold stepState
  cases hs : sanitizedNumber (unsanitizedNumber input) with
  | none => exact h
  | some s =>
    obtain ⟨z, hz, hr⟩ := sanitize_pipeline_shape input s hs
    exact Or.inr ⟨z, by simp [hz], hr⟩

lemma stepState_whole (fn : AppNumber) (input : String) :
    stepState fn input = fn ∨ ∃ v, stepState fn input = AppNumber.sanitized v := by
  unfold stepState
  cases sanitizedNumber (unsanitizedNumber input) with
  | none => exact Or.inl rfl
  | some s => exact Or.inr ⟨s.value, rfl⟩

lemma runLoop_cons_reject (r : String) (rest : List String) (fn : AppNumber)
    (hrej : sanitizedNumber (unsanitizedNumber r) = none)
    (hfn : fn.kind ≠ "sanitized-number") :
    runLoop (r :: rest) fn =
      (Event.readLine r :: Event.errLine (showErrorMsg r) :: (runLoop rest fn).1,
       (runLoop rest fn).2) := by
  have hstep : stepState fn r = fn := by
    unfold stepState
    rw [hrej]
  simp only [runLoop, hstep, hrej, if_pos hfn]
  rfl

lemma runLoop_all_reject (inputs : List String) (fn : AppNumber)
    (hfn : fn.kind ≠ "sanitized-number")
    (h : ∀ s ∈ inputs, sanitizedNumber (unsanitizedNumber s) = none) :
    (runLoop inputs fn).2 = none ∧
      countErr (runLoop inputs fn).1 = inputs.length := by
  induction inputs with
  | nil => exact ⟨rfl, rfl⟩
  | cons r rest ih =>
    have hr := h r (List.mem_cons_self r rest)
    rw [runLoop_cons_reject r rest fn hr hfn]
    have htail := ih (fun s hs => h s (List.mem_cons_of_mem r hs))
    refine ⟨htail.1, ?_⟩
    simp [countErr, List.countP_cons] at htail ⊢
    omega

lemma runLoop_final_good (inputs : List String) :
    ∀ fn, goodState fn → ∀ fn', (runLoop inputs fn).2 = some fn' →
      fn'.kind = "sanitized-number" ∧
      ∃ z : ℤ, fn' = AppNumber.sanitized (JSNum.num ((z : ℤ) : ℚ)) ∧
        1 ≤ z ∧ z ≤ 10 := by
  induction inputs with
  | nil =>
    intro fn _ fn' h'
    exact absurd h' (by simp [runLoop])
  | cons r rest ih =>
    intro fn hgood fn' h'
    by_cases hcond : (stepState fn r).kind ≠ "sanitized-number"
    · rw [show runLoop (r :: rest) fn =
          ((match sanitizedNumber (unsanitizedNumber r) with
            | some _ => [Event.readLine r]
            | none => [Event.readLine r, Event.errLine (showErrorMsg r)]) ++
            (runLoop rest (stepState fn r)).1,
           (runLoop rest (stepState fn r)).2) from by
          simp only [runLoop, if_pos hcond]] at h'
      exact ih (stepState fn r) (stepState_preserves_good fn r hgood) fn' h'
    · rw [show runLoop (r :: rest) fn =
          ((match sanitizedNumber (unsanitizedNumber r) with
            | some _ => [Event.readLine r]
            | none => [Event.readLine r, Event.errLine (showErrorMsg r)]),
           some (stepState fn r)) from by
          simp only [runLoop, if_neg hcond]] at h'
      obtain rfl : stepState fn r = fn' := Option.some.inj h'
      push_neg at hcond
      refine ⟨hcond, ?_⟩
      rcases stepState_preserves_good fn r hgood with hinv | ⟨z, hz, hr⟩
      · rw [hinv] at hcond
        exact absurd hcond (by decide)
      · exact ⟨z, hz, hr⟩

lemma unsanitized_eq_spec_of_no_hex (s : String)
    (h : hexMarked (readSign (skipWs s.data)).2 = false) :
    unsanitizedNumber s =
      (specLeadingBase10 s).map
        (fun z => (⟨JSNum.num ((z : ℤ) : ℚ)⟩ : UnsanitizedNumber)) := by
  unfold unsanitizedNumber parseIntJS specLeadingBase10 parseTail
  simp only [h, Bool.false_eq_true, if_false]
  by_cases h2 : takeDigits 10 (readSign (skipWs s.data)).2 = []
  · simp [h2]
  · simp [h2]

example : parseIntJS "7" = JSNum.num 7 := by decide
example : parseIntJS "0x10" = JSNum.num 16 := by decide
example : parseIntJS "abc" = JSNum.nan := by decide
example : parseIntJS " -42easy" = JSNum.num (-42) := by decide
example : jsToString (-105) = "-105" := by decide
example : sanitizedNumber (unsanitizedNumber "11") = none := by decide
example : sanitizedNumber (unsanitizedNumber "10") = some ⟨JSNum.num 10⟩ := by decide

/-- Claim C1: for the input sequence of lines "0", then "11", then "7", the
interaction loop acquires exactly one line from the input channel per
iteration (three reads for the three iterations), emits exactly two
diagnostic lines echoing "0" and "11", and then reaches the terminal state
with a success message reporting the value 7. -/
theorem c1_scenario_b_trace :
    runProgram ["0", "11", "7"] =
      ([Event.outLine "Give me a number between 1 and 10:",
        Event.readLine "0",
        Event.errLine "0 is not what I asked for.",
        Event.readLine "11",
        Event.errLine "11 is not what I asked for.",
        Event.readLine "7",
        Event.outLine "You did what I wanted and gave me 7!"],
       ProgOutcome.finished (AppNumber.sanitized (JSNum.num 7))) ∧
    countRead (runProgram ["0", "11", "7"]).1 = 3 ∧
    countErr (runProgram ["0", "11", "7"]).1 = 2 := by decide

/-- Claim C2 (counterexample): `parseNumber` does not always wrap the base-10
value of the input's leading content.  On the input "0x10" the code follows
ECMAScript `parseInt`'s radix-16 switch and wraps 16, while the base-10
reading of the leading content ("0") is 0, so the claimed relation between
`unsanitizedNumber` and the base-10 interpretation fails at "0x10". -/
theorem c2_hex_counterexample :
    unsanitizedNumber "0x10" = some ⟨JSNum.num 16⟩ ∧
    specLeadingBase10 "0x10" = some 0 ∧
    unsanitizedNumber "0x10" ≠
      (specLeadingBase10 "0x10").map
        (fun z => (⟨JSNum.num ((z : ℤ) : ℚ)⟩ : UnsanitizedNumber)) := by decide

/-- Claim C2 (amended): for every input whose content after optional white
space and an optional sign does not begin with the hexadecimal marker
`0x`/`0X`, and whose leading digit run has value at most 2^53 - 1 (the
exactly-representable range, within which `parseInt`'s rounding of the
mathematical value to a double is the identity and the rational model is
faithful), `unsanitizedNumber` is exactly the base-10 interpretation of the
leading content: absent when there is no leading base-10 integer, and
wrapping its base-10 value when there is.  Inputs with the marker are
instead interpreted in base 16, and beyond the exact range `parseInt`
returns the nearest double rather than the base-10 value. -/
theorem c2_base10_amended (s : String)
    (h : hexMarked (readSign (skipWs s.data)).2 = false)
    (_hr : digitsVal 10 (takeDigits 10 (readSign (skipWs s.data)).2) ≤
      2 ^ 53 - 1) :
    unsanitizedNumber s =
      (specLeadingBase10 s).map
        (fun z => (⟨JSNum.num ((z : ℤ) : ℚ)⟩ : UnsanitizedNumber)) :=
  unsanitized_eq_spec_of_no_hex s h

/-- Witness for the amended claim C2 at the concrete input "42 apples". -/
theorem c2_base10_amended_witness :
    unsanitizedNumber "42 apples" =
      (specLeadingBase10 "42 apples").map
        (fun z => (⟨JSNum.num ((z : ℤ) : ℚ)⟩ : UnsanitizedNumber)) :=
  c2_base10_amended "42 apples" (by decide) (by decide)

/-- Claim C3 (counterexample): a non-integer value that reaches the
sanitization stage is not rejected: `sanitizeNumber(Unsanitized(1/2))`
returns `Sanitized(1/2)` (the code's check `value > 0 && value <= 10` does
not test integrality), refuting the claim that every non-integer value is
mapped to absent.  The denominator 2 witnesses that 1/2 is not an integer. -/
theorem c3_noninteger_counterexample :
    (mkRat 1 2).den = 2 ∧
    sanitizedNumber (some ⟨JSNum.num (mkRat 1 2)⟩) =
      some ⟨JSNum.num (mkRat 1 2)⟩ := by decide

/-- Claim C3 (amended): `sanitizeNumber` rejects a NaN value, and it accepts
an arbitrary wrapped value v — integer or not — exactly when 0 < v ≤ 10; in
particular a non-integer v inside that interval is propagated as
`Sanitized(v)` rather than rejected, while every non-integer outside it is
rejected. -/
theorem c3_noninteger_amended (v : ℚ) :
    sanitizedNumber (some ⟨JSNum.nan⟩) = none ∧
    sanitizedNumber (some ⟨JSNum.num v⟩) =
      (if 0 < v ∧ v ≤ 10 then some ⟨JSNum.num v⟩ else none) :=
  ⟨rfl, sanitizedNumber_rat v⟩

/-- Claim C4: for every integer n with 1 ≤ n ≤ 10, `sanitizeNumber` wraps the
same value n as a `SanitizedNumber`; for every integer n outside the range
it returns absent; the check is inclusive on both ends. -/
theorem c4_range_check (n : ℤ) :
    (1 ≤ n ∧ n ≤ 10 →
      sanitizedNumber (some ⟨JSNum.num ((n : ℤ) : ℚ)⟩) =
        some ⟨JSNum.num ((n : ℤ) : ℚ)⟩) ∧
    (n < 1 ∨ 10 < n →
      sanitizedNumber (some ⟨JSNum.num ((n : ℤ) : ℚ)⟩) = none) := by
  constructor
  · intro h
    rw [sanitizedNumber_int, if_pos h]
  · intro h
    rw [sanitizedNumber_int, if_neg (by omega)]

/-- Witness for claim C4 at the boundary inputs 1, 10 (accepted) and 0, 11
(rejected). -/
theorem c4_range_check_witness :
    sanitizedNumber (some ⟨JSNum.num ((10 : ℤ) : ℚ)⟩) =
      some ⟨JSNum.num ((10 : ℤ) : ℚ)⟩ ∧
    sanitizedNumber (some ⟨JSNum.num ((1 : ℤ) : ℚ)⟩) =
      some ⟨JSNum.num ((1 : ℤ) : ℚ)⟩ ∧
    sanitizedNumber (some ⟨JSNum.num ((0 : ℤ) : ℚ)⟩) = none ∧
    sanitizedNumber (some ⟨JSNum.num ((11 : ℤ) : ℚ)⟩) = none :=
  ⟨(c4_range_check 10).1 (by decide), (c4_range_check 1).1 (by decide),
   (c4_range_check 0).2 (by decide), (c4_range_check 11).2 (by decide)⟩

/-- Claim C5: `sanitizeNumber` applied to the absent signal returns absent
unchanged; the absent case is matched before any range logic is reached, so
the equation holds by computation alone. -/
theorem c5_short_circuit : sanitizedNumber none = none := rfl

/-- Claim C6 (the code evaluated at the failing input): on an input channel
closed at end-of-file, every `fs.readFile('/dev/stdin')` resolves with the
empty string, so for every number k of such reads the program is still
inside the loop: each empty read is treated as just another rejected
attempt, producing one diagnostic line, and no exit is ever taken — the
opposite of the claimed fatal termination.  Only an unreadable channel,
whose read rejects with no handler in scope, terminates the process with
the non-zero status 1. -/
theorem c6_closed_channel_loops (k : ℕ) :
    (runProgram (List.replicate k "")).2 = ProgOutcome.looping ∧
    exitStatus (runProgram (List.replicate k "")).2 = none ∧
    countErr (runProgram (List.replicate k "")).1 = k ∧
    exitStatus readErrorOutcome = some 1 := by
  have hrej : ∀ s ∈ List.replicate k "",
      sanitizedNumber (unsanitizedNumber s) = none := by
    intro s hs
    rw [List.eq_of_mem_replicate hs]
    decide
  obtain ⟨hnone, hcount⟩ :=
    runLoop_all_reject (List.replicate k "") AppNumber.invalid (by decide) hrej
  have hpair : runLoop (List.replicate k "") AppNumber.invalid =
      ((runLoop (List.replicate k "") AppNumber.invalid).1,
       (runLoop (List.replicate k "") AppNumber.invalid).2) := rfl
  unfold runProgram
  rw [hpair, hnone]
  refine ⟨rfl, rfl, ?_, rfl⟩
  rw [List.length_replicate] at hcount
  simpa [countErr, List.countP_cons] using hcount

/-- Claim C7: a rejected attempt contributes exactly one diagnostic line,
echoing the offending raw input, and the diagnostic is the same function of
the raw input whichever stage rejected it (the reporter is invoked with the
raw text only, and its message never mentions the stage). -/
theorem c7_one_diagnostic (r : String) (rest : List String) (fn : AppNumber)
    (hrej : sanitizedNumber (unsanitizedNumber r) = none)
    (hfn : fn.kind ≠ "sanitized-number") :
    runLoop (r :: rest) fn =
      (Event.readLine r :: Event.errLine (showErrorMsg r) ::
        (runLoop rest fn).1,
       (runLoop rest fn).2) ∧
    showErrorMsg r = r ++ " is not what I asked for." :=
  ⟨runLoop_cons_reject r rest fn hrej hfn, rfl⟩

/-- Witness for claim C7 at the parse-failure input "abc". -/
theorem c7_one_diagnostic_witness :
    (runLoop ["abc"] AppNumber.invalid =
      (Event.readLine "abc" :: Event.errLine (showErrorMsg "abc") ::
        (runLoop ([] : List String) AppNumber.invalid).1,
       (runLoop ([] : List String) AppNumber.invalid).2) ∧
    showErrorMsg "abc" = "abc" ++ " is not what I asked for.") :=
  c7_one_diagnostic "abc" [] AppNumber.invalid (by decide) (by decide)

/-- Claim C8: for every integer n in the double-exact range (|n| at most
2^53 - 1, where the rational model provably coincides with platform number
arithmetic), parsing the decimal rendering of n wraps exactly n, including
negative and out-of-range integers. -/
theorem c8_parse_renders_int (n : ℤ) (_h : n.natAbs ≤ 2 ^ 53 - 1) :
    unsanitizedNumber (jsToString n) = some ⟨JSNum.num ((n : ℤ) : ℚ)⟩ :=
  unsanitizedNumber_jsToString n

/-- Witness for claim C8 at the negative input -12. -/
theorem c8_parse_renders_int_witness :
    unsanitizedNumber (jsToString (-12)) =
      some ⟨JSNum.num (((-12 : ℤ)) : ℚ)⟩ :=
  c8_parse_renders_int (-12) (by decide)

/-- Claim C9: every `SanitizedNumber` produced by the pipeline round-trips:
rendering its wrapped value back to text and feeding it through parse then
sanitize yields the same `SanitizedNumber` again. -/
theorem c9_idempotent_roundtrip (input : String) (s : SanitizedNumber)
    (h : sanitizedNumber (unsanitizedNumber input) = some s) :
    sanitizedNumber (unsanitizedNumber (JSNum.display s.value)) = some s := by
  obtain ⟨sv⟩ := s
  obtain ⟨z, hz, hr⟩ := sanitize_pipeline_shape input ⟨sv⟩ h
  have hz' : sv = JSNum.num ((z : ℤ) : ℚ) := hz
  subst hz'
  have hdisp : JSNum.display (JSNum.num ((z : ℤ) : ℚ)) = jsToString z := by
    simp [JSNum.display]
  show sanitizedNumber (unsanitizedNumber
    (JSNum.display (JSNum.num ((z : ℤ) : ℚ)))) = _
  rw [hdisp, unsanitizedNumber_jsToString, sanitizedNumber_int, if_pos hr]

/-- Witness for claim C9 with the pipeline run on the input "5". -/
theorem c9_idempotent_roundtrip_witness :
    sanitizedNumber (unsanitizedNumber
      (JSNum.display ((⟨JSNum.num 5⟩ : SanitizedNumber)).value)) =
      some ⟨JSNum.num 5⟩ :=
  c9_idempotent_roundtrip "5" ⟨JSNum.num 5⟩ (by decide)

/-- Claim C10: the loop-state invariant.  The body's update of `finalNumber`
preserves the invariant that the variable is the `InvalidNumber` placeholder
or a `SanitizedNumber` wrapping an integer in [1, 10] (so it never holds an
`UnsanitizedNumber`); the update either leaves the variable untouched or
replaces it wholesale with a freshly constructed sanitized record; and the
loop exits exactly into a state whose `kind` is `'sanitized-number'`, whose
wrapped value — the one the success message reports — lies in [1, 10]. -/
theorem c10_loop_invariant :
    (∀ fn input, goodState fn → goodState (stepState fn input)) ∧
    (∀ fn input, stepState fn input = fn ∨
      ∃ v, stepState fn input = AppNumber.sanitized v) ∧
    (∀ inputs fn fn', goodState fn → (runLoop inputs fn).2 = some fn' →
      fn'.kind = "sanitized-number" ∧
      ∃ z : ℤ, fn' = AppNumber.sanitized (JSNum.num ((z : ℤ) : ℚ)) ∧
        1 ≤ z ∧ z ≤ 10) :=
  ⟨fun fn input h => stepState_preserves_good fn input h,
   fun fn input => stepState_whole fn input,
   fun inputs fn fn' h h' => runLoop_final_good inputs fn h fn' h'⟩

/-- Witness for claim C10: the invariant instantiated on the concrete run
that starts from the invalid placeholder and reads "5". -/
theorem c10_loop_invariant_witness :
    goodState (stepState AppNumber.invalid "5") ∧
    ((AppNumber.sanitized (JSNum.num 5)).kind = "sanitized-number" ∧
      ∃ z : ℤ, AppNumber.sanitized (JSNum.num 5) =
        AppNumber.sanitized (JSNum.num ((z : ℤ) : ℚ)) ∧ 1 ≤ z ∧ z ≤ 10) :=
  ⟨c10_loop_invariant.1 AppNumber.invalid "5" (Or.inl rfl),
   c10_loop_invariant.2.2 ["5"] AppNumber.invalid
     (AppNumber.sanitized (JSNum.num 5)) (Or.inl rfl) (by decide)⟩
